import Mathlib

/-!
Verification of the hybrid forecasting and fallback engine of the
Embarcatech dashboard repository.

Shallow embedding conventions:
* Python floats are modelled as exact rationals (`ℚ`); timestamps are
  modelled as rational epoch seconds (the code parses ISO-8601 strings
  into datetimes; we work at the parsed level).
* The environment flag `STATSMODELS_AVAILABLE` is fixed to `False`,
  matching the self-contained statistical implementation that the spec
  describes (Yule-Walker estimation, simplified SARIMA); the
  `GRANITE_AVAILABLE` flag is kept as explicit state.
* External non-determinism (the Granite pipeline output, model-load
  success, the random noise of `_simple_forecast`) is passed in as
  explicit oracle arguments.
* All functions are total; the exception paths of the source are the
  explicit degradation branches of the same functions.
-/

/-- Python slice `l[-n:]`: the last `n` elements (all of them when
`l.length ≤ n`). -/
def lastN {α : Type} (n : ℕ) (l : List α) : List α :=
  l.drop (l.length - n)

/-- `np.mean` over a list of rationals (0 on the empty list, which the
claims never hit). -/
def listMean (l : List ℚ) : ℚ :=
  l.sum / (l.length : ℚ)

/-- `np.var` (population variance, ddof = 0). -/
def popVar (l : List ℚ) : ℚ :=
  listMean (l.map (fun x => (x - listMean l) * (x - listMean l)))

/-- Index-aware map, auxiliary recursion carrying the running index. -/
def mapIdxAux {α β : Type} (f : ℕ → α → β) : ℕ → List α → List β
  | _, [] => []
  | i, x :: t => f i x :: mapIdxAux f (i + 1) t

/-- `for i, x in enumerate(l)` style map. -/
def mapWithIdx {α β : Type} (f : ℕ → α → β) (l : List α) : List β :=
  mapIdxAux f 0 l

/-- `np.cumsum`, auxiliary recursion carrying the partial sum. -/
def cumsumAux : ℚ → List ℚ → List ℚ
  | _, [] => []
  | acc, x :: t => (acc + x) :: cumsumAux (acc + x) t

/-- `np.cumsum`: inclusive partial sums. -/
def cumsum (l : List ℚ) : List ℚ :=
  cumsumAux 0 l

/-- `collections.deque(maxlen := maxlen).append x`: append and evict the
oldest elements so that at most `maxlen` remain. -/
def dequeAppend (maxlen : ℕ) (l : List ℚ) (x : ℚ) : List ℚ :=
  (l ++ [x]).drop ((l ++ [x]).length - maxlen)

/-- A telemetry point: `{timestamp, value}` with the timestamp already
parsed to epoch seconds. -/
structure DataPoint where
  timestamp : ℚ
  value : ℚ
deriving DecidableEq

/-- `SarimaConfig` of `sarimaFallbackService.py` (defaults as in the
source dataclass). -/
structure SarimaConfig where
  p : ℕ := 1
  d : ℕ := 1
  q : ℕ := 1
  P : ℕ := 1
  D : ℕ := 1
  Q : ℕ := 0
  s : ℕ := 24
  maeThreshold : ℚ := 5
  maeWindowSize : ℕ := 50
  autoSelectParams : Bool := true
deriving DecidableEq

/-- The mutable state of `SarimaFallbackService` (the fitted
statsmodels handle is not modelled: statsmodels is unavailable in the
modelled environment). -/
structure SarimaState where
  config : SarimaConfig
  predictionHistory : List ℚ
  actualHistory : List ℚ
  currentMae : ℚ
  fallbackActive : Bool
  running : Bool
deriving DecidableEq

/-- `SarimaFallbackService.__init__`. -/
def SarimaFallbackService.init (cfg : SarimaConfig) : SarimaState :=
  { config := cfg
    predictionHistory := []
    actualHistory := []
    currentMae := 0
    fallbackActive := false
    running := true }

/-- `SarimaFallbackService.calculateMae`. -/
def SarimaFallbackService.calculateMae (predictions actuals : List ℚ) : ℚ :=
  if predictions = [] ∨ actuals = [] then 0
  else
    let n := min predictions.length actuals.length
    if n = 0 then 0
    else (List.zipWith (fun a b => |a - b|) predictions actuals).sum / (n : ℚ)

/-- `SarimaFallbackService.updateMaeTracking`: push the pair into the two
bounded FIFOs and recompute the MAE of the current window. -/
def SarimaFallbackService.updateMaeTracking (st : SarimaState) (predicted actual : ℚ) :
    ℚ × SarimaState :=
  let ph := dequeAppend st.config.maeWindowSize st.predictionHistory predicted
  let ah := dequeAppend st.config.maeWindowSize st.actualHistory actual
  let mae := SarimaFallbackService.calculateMae ph ah
  (mae, { st with predictionHistory := ph, actualHistory := ah, currentMae := mae })

/-- `SarimaFallbackService.shouldUseFallback`: `none` models passing
`graniteMae = None` (primary unavailable). -/
def SarimaFallbackService.shouldUseFallback (st : SarimaState) (graniteMae : Option ℚ) :
    Bool × SarimaState :=
  match graniteMae with
  | none => (true, { st with fallbackActive := true })
  | some m =>
    if st.config.maeThreshold < m then (true, { st with fallbackActive := true })
    else (false, { st with fallbackActive := false })

/-- One non-seasonal differencing pass (`np.diff`), a no-op on series of
length ≤ 1 as in `_applyDifferencing`. -/
def diffStep (l : List ℚ) : List ℚ :=
  if 1 < l.length then List.zipWith (fun a b => b - a) l (l.drop 1) else l

/-- One seasonal differencing pass (`result[s:] - result[:-s]`), a no-op
unless the series is longer than the lag. -/
def seasonalDiffStep (s : ℕ) (l : List ℚ) : List ℚ :=
  if s < l.length then List.zipWith (fun a b => b - a) l (l.drop s) else l

/-- `SarimaFallbackService._applyDifferencing`: seasonal differencing `D`
times first, then non-seasonal differencing `d` times. -/
def applyDifferencing (series : List ℚ) (d s D : ℕ) : List ℚ :=
  diffStep^[d] ((seasonalDiffStep s)^[D] series)

/-- One inversion pass of non-seasonal differencing: last original value
plus cumulative sums (the source anchors every pass at
`originalSeries[-1]`). -/
def invertNonSeasStep (originalSeries : List ℚ) (l : List ℚ) : List ℚ :=
  (cumsum l).map (fun c => (originalSeries.getLast?).getD 0 + c)

/-- One inversion pass of seasonal differencing: add the corresponding
lag-`s` base value cyclically. -/
def invertSeasStep (originalSeries : List ℚ) (s : ℕ) (l : List ℚ) : List ℚ :=
  if s ≤ originalSeries.length then
    mapWithIdx (fun i v => v + (lastN s originalSeries).getD (i % s) 0) l
  else l

/-- `SarimaFallbackService._invertDifferencing`: invert non-seasonal
differencing first, then seasonal. -/
def invertDifferencing (forecasts originalSeries : List ℚ) (d s D : ℕ) : List ℚ :=
  (invertSeasStep originalSeries s)^[D] ((invertNonSeasStep originalSeries)^[d] forecasts)

/-- Exact Gaussian elimination on an augmented system, used to model
`np.linalg.solve`; `none` models the singular case (`LinAlgError`). -/
def gaussSolveAux : ℕ → List (List ℚ) → Option (List ℚ)
  | 0, _ => some []
  | n + 1, rows =>
    match rows.find? (fun row => decide (row.headD 0 ≠ 0)) with
    | none => none
    | some piv =>
      let ph := piv.headD 0
      let rest := (rows.erase piv).map (fun row =>
        List.zipWith (fun a b => a - (row.headD 0 / ph) * b) (row.drop 1) (piv.drop 1))
      match gaussSolveAux n rest with
      | none => none
      | some xs =>
        let rhs := (piv.getLast?).getD 0
        let coeffs := (piv.drop 1).dropLast
        some (((rhs - (List.zipWith (fun a b => a * b) coeffs xs).sum) / ph) :: xs)

/-- Solve `R · φ = r` exactly (`np.linalg.solve`). -/
def gaussSolve (R : List (List ℚ)) (r : List ℚ) : Option (List ℚ) :=
  gaussSolveAux r.length (List.zipWith (fun row b => row ++ [b]) R r)

/-- `SarimaFallbackService._fitArCoefficients`: Yule-Walker estimation
(autocorrelation, Toeplitz matrix, linear solve).  The
`np.linalg.lstsq` fallback on a singular matrix and the outer exception
handler (which returns `np.zeros(p)`) are both modelled by the zero
vector; no theorem below depends on the coefficient values, only on the
shape of the forecast built from them. -/
def fitArCoefficients (series : List ℚ) (p : ℕ) : List ℚ :=
  if p = 0 ∨ series.length ≤ p then []
  else
    let m := listMean series
    let centered := series.map (fun x => x - m)
    let rawAcf : ℕ → ℚ := fun k => (List.zipWith (fun a b => a * b) centered (centered.drop k)).sum
    let acorr : ℕ → ℚ := fun k => rawAcf k / rawAcf 0
    let R := (List.range p).map (fun i => (List.range p).map (fun j => acorr (max i j - min i j)))
    let r := (List.range p).map (fun j => acorr (j + 1))
    match gaussSolve R r with
    | some phi => phi
    | none => List.replicate p 0

/-- The recursive forecast loop of `_simpleSarimaForecast`: AR prediction
from the rolling buffer when `p > 0` and coefficients exist, otherwise
the mean of the last 10 differenced points. -/
def arForecastLoop (arCoeffs : List ℚ) (p : ℕ) (diffSeries : List ℚ) :
    List ℚ → ℕ → List ℚ
  | _, 0 => []
  | buffer, steps + 1 =>
    let pred :=
      if 0 < p ∧ arCoeffs ≠ [] then
        (List.zipWith (fun a b => a * b) arCoeffs (lastN p buffer).reverse).sum
      else listMean (lastN 10 diffSeries)
    pred :: arForecastLoop arCoeffs p diffSeries (buffer ++ [pred]) steps

/-- `SarimaFallbackService._simpleSarimaForecast`: differencing, AR
estimation, recursive forecasting, undifferencing; degrades to the mean
of the last ≤ 10 raw values when the differenced series is too short. -/
def simpleSarimaForecast (cfg : SarimaConfig) (series : List ℚ) (steps : ℕ) : List ℚ :=
  let diffSeries := applyDifferencing series cfg.d cfg.s cfg.D
  if diffSeries.length < cfg.p + 1 then
    List.replicate steps (listMean (lastN (min 10 series.length) series))
  else
    let arCoeffs := fitArCoefficients diffSeries cfg.p
    let buffer := if 0 < cfg.p then lastN cfg.p diffSeries else []
    invertDifferencing (arForecastLoop arCoeffs cfg.p diffSeries buffer steps)
      series cfg.d cfg.s cfg.D

/-- `SarimaFallbackService._detectSeasonality` (statsmodels-free branch):
autocorrelation up to `min 100 (n / 2)` lags, pick the index of the
highest local peak above 0.3, else keep the configured period.  On a
constant series the Python code divides by a zero autocorrelation and
all NaN comparisons are false; the rational model divides by zero giving
0, and 0 > 0 is false, so both keep the configured period. -/
def detectSeasonality (cfg : SarimaConfig) (series : List ℚ) : ℕ :=
  if series.length < 50 then cfg.s
  else
    let n := series.length
    let m := listMean series
    let centered := series.map (fun x => x - m)
    let nl := min 100 (n / 2)
    let raw := (List.range nl).map (fun k =>
      (List.zipWith (fun a b => a * b) centered (centered.drop k)).sum)
    let a0 := raw.headD 0
    let ac := raw.map (fun x => x / a0)
    let peaks := (List.range ac.length).filter (fun i =>
      decide (2 ≤ i ∧ i + 1 < ac.length ∧ ac.getD (i - 1) 0 < ac.getD i 0 ∧
        ac.getD (i + 1) 0 < ac.getD i 0 ∧ (3 : ℚ)/10 < ac.getD i 0))
    match peaks with
    | [] => cfg.s
    | i0 :: rest =>
      rest.foldl (fun best i => if ac.getD best 0 < ac.getD i 0 then i else best) i0

/-- `ForecastResult` of `sarimaFallbackService.py`.  The `modelUsed`
string is a pure formatting of the configuration and is not modelled. -/
structure SarimaForecastResult where
  predictions : List ℚ
  timestamps : List ℚ
  mae : ℚ
  isFromFallback : Bool
  confidence : ℚ
deriving DecidableEq

/-- `SarimaFallbackService.forecast`: the main fallback prediction entry
point.  Returns the optional result together with the state after the
call (auto seasonality detection overwrites `config.s`). -/
def SarimaFallbackService.forecast (st : SarimaState) (dataHistory : List DataPoint)
    (steps : ℕ) : Option SarimaForecastResult × SarimaState :=
  if st.running = false then (none, st)
  else if dataHistory.length < 10 then (none, st)
  else
    let values := dataHistory.map DataPoint.value
    let timestamps := dataHistory.map DataPoint.timestamp
    let newS := if st.config.autoSelectParams then detectSeasonality st.config values
      else st.config.s
    let cfg := { st.config with s := newS }
    let st1 := { st with config := cfg }
    let predictions := simpleSarimaForecast cfg values steps
    let lastTs := (timestamps.getLast?).getD 0
    let interval :=
      if 2 ≤ timestamps.length then lastTs - timestamps.getD (timestamps.length - 2) 0
      else 1
    let futureTimestamps := (List.range steps).map (fun i => lastTs + interval * ((i : ℚ) + 1))
    let variance := if 50 ≤ values.length then popVar (lastN 50 values) else popVar values
    let confidence :=
      max (1/2) (min (19/20) (1 - variance / (listMean values * listMean values + 1/1000000)))
    (some { predictions := predictions
            timestamps := futureTimestamps
            mae := st.currentMae
            isFromFallback := true
            confidence := confidence }, st1)

/-- The confidence formula exactly as the spec words it ("computed over
the last 50 (or fewer) raw values" — mean included).  Used only to
compare the source behaviour against the spec sentence. -/
def confidencePerSpec (values : List ℚ) : ℚ :=
  max (1/2) (min (19/20)
    (1 - popVar (lastN 50 values) /
      (listMean (lastN 50 values) * listMean (lastN 50 values) + 1/1000000)))

/-- Tag for `model_used` in the orchestrator result (the source stores a
display string; the tag distinguishes the same cases). -/
inductive ModelTag where
  | unknown
  | granite
  | sarima
  | smoothing
deriving DecidableEq

/-- One raw value of the Granite pipeline output column: a finite number
or something non-numeric / non-finite that sanitization drops. -/
inductive GraniteVal where
  | num (q : ℚ)
  | nonNumeric
deriving DecidableEq

/-- `ForecastService._sanitize_predictions` on the (flat) extracted
prediction column: keep finite numbers in order, up to `limit`. -/
def sanitizePredictions (raw : List GraniteVal) (limit : ℕ) : List ℚ :=
  (raw.filterMap (fun v => match v with
    | GraniteVal.num q => some q
    | GraniteVal.nonNumeric => none)).take limit

/-- The mutable state of `ForecastService`.  `granite_available` models
the module flag `GRANITE_AVAILABLE`; both history deques have the fixed
bound 168 in the source. -/
structure ForecastState where
  forecast_horizon : ℕ
  context_length : ℕ
  use_granite : Bool
  granite_available : Bool
  model_loaded : Bool
  sampleInterval : ℕ
  enableAnnualSeasonality : Bool
  seasonalPeriodAnnual : ℕ
  seasonalPeriodDaily : ℕ
  maeThreshold : ℚ
  currentMae : ℚ
  useFallback : Bool
  predictionHistory : List ℚ
  actualHistory : List ℚ
  running : Bool
  sarimaFallback : SarimaState
deriving DecidableEq

/-- Calendar-hour bucket of an epoch-seconds timestamp (what
`pd.resample('h')` groups by). -/
def hourBucket (t : ℚ) : ℤ := ⌊t / 3600⌋

/-- `ForecastService.aggregateHourlyData`: group into calendar-hour
buckets, emit the arithmetic mean of each non-empty bucket in ascending
time order (pandas sorts the datetime index while resampling). -/
def aggregateHourlyData (dataHistory : List DataPoint) : List DataPoint :=
  if dataHistory = [] then []
  else
    let buckets := List.insertionSort (fun a b => a ≤ b)
      ((dataHistory.map (fun pt => hourBucket pt.timestamp)).dedup)
    buckets.map (fun b =>
      let vs := (dataHistory.filter (fun pt => decide (hourBucket pt.timestamp = b))).map
        DataPoint.value
      { timestamp := (b : ℚ) * 3600, value := listMean vs })

/-- `ForecastService._load_granite_model` (lazy, do-once): `loadOk` is
the oracle for whether loading the external model succeeds; a failure
permanently clears `use_granite` as in the source. -/
def ForecastService.loadGraniteModel (st : ForecastState) (loadOk : Bool) : ForecastState :=
  if st.model_loaded = true ∨ st.granite_available = false then st
  else if loadOk then { st with model_loaded := true }
  else { st with use_granite := false }

/-- `ForecastService._granite_forecast`: load lazily, run the pipeline
(`graniteRaw` is the oracle for the extracted prediction column, `none`
for an inference exception), sanitize, and treat an empty sanitized
output as failure. -/
def ForecastService.graniteForecast (st : ForecastState) (steps : ℕ) (loadOk : Bool)
    (graniteRaw : Option (List GraniteVal)) : Option (List ℚ) × ForecastState :=
  let st1 := ForecastService.loadGraniteModel st loadOk
  if st1.model_loaded = false then (none, st1)
  else
    match graniteRaw with
    | none => (none, st1)
    | some raw =>
      let preds := sanitizePredictions (raw.take steps) steps
      if preds = [] then (none, st1) else (some preds, st1)

/-- `ForecastService._prepare_series`: keep the most recent
`context_length` points and sort by timestamp. -/
def ForecastService.prepareSeries (st : ForecastState) (dataHistory : List DataPoint) :
    List ℚ :=
  (List.insertionSort (fun a b => a.timestamp ≤ b.timestamp)
    (lastN st.context_length dataHistory)).map DataPoint.value

/-- `ForecastService._simple_forecast` (tertiary fallback): linear trend
over the last ≤ 50 points (`np.polyfit` degree 1, written as the
closed-form least-squares line), damped seasonal component, and the
`np.random.normal` noise passed in as the oracle `noise`. -/
def ForecastService.simpleForecast (series : List ℚ) (steps : ℕ) (noise : ℕ → ℚ) :
    List ℚ :=
  let recent := lastN 50 series
  let n := recent.length
  let xs := (List.range n).map (fun j => (j : ℚ))
  let xbar := listMean xs
  let ybar := listMean recent
  let sxx := (xs.map (fun x => (x - xbar) * (x - xbar))).sum
  let sxy := (List.zipWith (fun x y => (x - xbar) * (y - ybar)) xs recent).sum
  let trendAt : ℚ → ℚ := fun x =>
    if 1 < n then (sxy / sxx) * x + (ybar - (sxy / sxx) * xbar)
    else (recent.getLast?).getD 0
  let seasonal := if 50 ≤ n then lastN 50 recent else List.replicate 50 0
  (List.range steps).map (fun (i : ℕ) =>
    let trendValue := trendAt ((n : ℚ) + (i : ℚ))
    let seasonalValue := seasonal.getD (i % seasonal.length) 0 - listMean recent
    trendValue + seasonalValue * (3/10) + noise i)

/-- `_exponential_smoothing_forecast`: statsmodels is unavailable in the
modelled environment, so the Holt-Winters import fails and the method
falls through to `_simple_forecast` (its tag stays "Exponential
Smoothing" in the source). -/
def ForecastService.exponentialSmoothingForecast (series : List ℚ) (steps : ℕ)
    (noise : ℕ → ℚ) : List ℚ :=
  ForecastService.simpleForecast series steps noise

/-- `ForecastService.addAnnualSeasonalComponent`.  The per-step offset
`cos(2π·(dayOfYear(t) − 355)/365) · 3.0` mixes calendar arithmetic with a
transcendental float function; it is abstracted as the argument
`annualOffset` (a function of the future timestamp).  No claim below
depends on its value, only on this component being a pure, length-
preserving, per-index addition. -/
def ForecastService.addAnnualSeasonalComponent (st : ForecastState)
    (annualOffset : ℚ → ℚ) (baseTimestamp : ℚ) (predictions : List ℚ) : List ℚ :=
  if st.enableAnnualSeasonality = false then predictions
  else mapWithIdx (fun i v => v + annualOffset (baseTimestamp + 3600 * ((i : ℚ) + 1)))
    predictions

/-- The local `humidityValues` of `applyHumidityCorrection`: the values
of the last 24 hourly-aggregated exogenous points. -/
def humidityValuesOf (humidityHistory : List DataPoint) : List ℚ :=
  lastN 24 ((aggregateHourlyData humidityHistory).map DataPoint.value)

/-- The local `avgHumidity` of `applyHumidityCorrection`. -/
def avgHumidityOf (humidityHistory : List DataPoint) : ℚ :=
  listMean (humidityValuesOf humidityHistory)

/-- The local `humiditySlope` of `applyHumidityCorrection`:
`(last − first) / count` over the last 24 aggregated values, 0 when
fewer than two are available. -/
def humiditySlopeOf (humidityHistory : List DataPoint) : ℚ :=
  if 2 ≤ (humidityValuesOf humidityHistory).length then
    (((humidityValuesOf humidityHistory).getLast?).getD 0 -
        (humidityValuesOf humidityHistory).headD 0) /
      ((humidityValuesOf humidityHistory).length : ℚ)
  else 0

/-- `ForecastService.applyHumidityCorrection`: needs ≥ 10 exogenous
points, aggregates them hourly, takes mean and crude slope of the last
24 aggregated values, projects `mean + slope·(i+1)` clamped to [0,100],
and adds `(projected − 50) · 0.05` to step `i`. -/
def ForecastService.applyHumidityCorrection (tempPredictions : List ℚ)
    (humidityHistory : List DataPoint) : List ℚ :=
  if humidityHistory.length < 10 then tempPredictions
  else if aggregateHourlyData humidityHistory = [] then tempPredictions
  else
    mapWithIdx (fun i t =>
      t + (max 0 (min 100 (avgHumidityOf humidityHistory +
            humiditySlopeOf humidityHistory * ((i : ℚ) + 1))) - 50) * (1/20))
      tempPredictions

/-- Python `int()` truncation toward zero on a rational. -/
def qTrunc (x : ℚ) : ℤ :=
  if 0 ≤ x then ⌊x⌋ else ⌈x⌉

/-- One entry of the `predictions` list assembled by
`ForecastService.predict`. -/
structure PredPoint where
  timestamp : ℚ
  value : ℚ
  horizonStep : ℕ
  hoursAhead : ℤ
deriving DecidableEq

/-- The result dict of `ForecastService.predict` (the wall-clock
`forecast_timestamp` and the derived `model_type` string are not
modelled). -/
structure PredictResult where
  predictions : List PredPoint
  forecastHorizonHours : ℕ
  contextSize : ℕ
  originalDataPoints : ℕ
  aggregated : Bool
  annualSeasonalityApplied : Bool
  humidityCorrectionApplied : Bool
  modelUsed : ModelTag
deriving DecidableEq

/-- The tail of `ForecastService.predict` after a model produced raw
forecast values: annual seasonal adjustment, humidity correction, future
timestamps, and the result record. -/
def ForecastService.assembleResult (st : ForecastState)
    (dataHistory workingData : List DataPoint) (aggregateData : Bool)
    (exogenousData : Option (List DataPoint)) (annualOffset : ℚ → ℚ)
    (steps : ℕ) (vals : List ℚ) (tag : ModelTag) : PredictResult :=
  let lastTs := ((workingData.map DataPoint.timestamp).getLast?).getD 0
  let v1 :=
    if st.enableAnnualSeasonality = true then
      ForecastService.addAnnualSeasonalComponent st annualOffset lastTs vals
    else vals
  let v2 :=
    match exogenousData with
    | some ex => ForecastService.applyHumidityCorrection v1 ex
    | none => v1
  let aggregated := aggregateData && decide (st.sampleInterval < dataHistory.length)
  let intervalHours : ℚ :=
    if aggregated = true then 1
    else if 2 ≤ workingData.length then
      (lastTs - (workingData.map DataPoint.timestamp).getD (workingData.length - 2) 0) / 3600
    else 1
  let predictions := mapWithIdx (fun i v =>
    { timestamp := lastTs + 3600 * (intervalHours * ((i : ℚ) + 1))
      value := v
      horizonStep := i + 1
      hoursAhead := qTrunc (intervalHours * ((i : ℚ) + 1)) : PredPoint }) v2
  { predictions := predictions
    forecastHorizonHours := steps
    contextSize := workingData.length
    originalDataPoints := dataHistory.length
    aggregated := aggregated
    annualSeasonalityApplied := st.enableAnnualSeasonality
    humidityCorrectionApplied := exogenousData.isSome
    modelUsed := tag }

/-- `ForecastService.predict`: insufficient-data stop, optional hourly
aggregation, horizon clamp, Granite / SARIMA / exponential-smoothing
chain, corrections, result assembly.  Returns the optional result and
the state after the call. -/
def ForecastService.predict (st : ForecastState) (dataHistory : List DataPoint)
    (aggregateData : Bool) (exogenousData : Option (List DataPoint))
    (loadOk : Bool) (graniteRaw : Option (List GraniteVal))
    (noise : ℕ → ℚ) (annualOffset : ℚ → ℚ) : Option PredictResult × ForecastState :=
  if dataHistory.length < 10 then (none, st)
  else
    let workingData :=
      if aggregateData = true ∧ st.sampleInterval < dataHistory.length then
        aggregateHourlyData dataHistory
      else dataHistory
    let steps := min st.forecast_horizon 24
    let g :=
      if st.use_granite = true ∧ st.context_length ≤ workingData.length then
        ForecastService.graniteForecast st steps loadOk graniteRaw
      else (none, st)
    match g with
    | (some vals, st1) =>
      (some (ForecastService.assembleResult st1 dataHistory workingData aggregateData
        exogenousData annualOffset steps vals ModelTag.granite), st1)
    | (none, st1) =>
      match SarimaFallbackService.forecast st1.sarimaFallback workingData steps with
      | (some r, sst) =>
        let st2 := { st1 with sarimaFallback := sst, useFallback := true }
        (some (ForecastService.assembleResult st2 dataHistory workingData aggregateData
          exogenousData annualOffset steps r.predictions ModelTag.sarima), st2)
      | (none, sst) =>
        let st2 := { st1 with sarimaFallback := sst }
        let vals := ForecastService.exponentialSmoothingForecast
          (ForecastService.prepareSeries st2 workingData) steps noise
        (some (ForecastService.assembleResult st2 dataHistory workingData aggregateData
          exogenousData annualOffset steps vals ModelTag.smoothing), st2)

/-- `ForecastService.shouldUseFallback`: primary module flag first, then
delegate to the SARIMA service with the current rolling MAE. -/
def ForecastService.shouldUseFallback (st : ForecastState) : Bool × ForecastState :=
  if st.granite_available = false then (true, st)
  else
    match SarimaFallbackService.shouldUseFallback st.sarimaFallback (some st.currentMae) with
    | (b, sst) => (b, { st with sarimaFallback := sst })

/-- A degenerate SARIMA configuration (no differencing, no AR order,
auto-detection off) used for concrete evaluations. -/
def cfgW : SarimaConfig :=
  { p := 0, d := 0, q := 0, P := 0, D := 0, Q := 0, s := 24,
    maeThreshold := 5, maeWindowSize := 50, autoSelectParams := false }

/-- Attach 1-second-spaced timestamps to a list of values. -/
def withTimes (vals : List ℚ) : List DataPoint :=
  mapWithIdx (fun i v => { timestamp := (i : ℚ), value := v }) vals

/-- Ten constant points: the minimum history size. -/
def hist10 : List DataPoint := withTimes (List.replicate 10 20)

/-- Sixty values whose overall mean (10/3) differs from the mean of the
last fifty (2), while the last fifty have population variance 1. -/
def vals60 : List ℚ :=
  List.replicate 10 (10 : ℚ) ++ List.replicate 25 1 ++ List.replicate 25 3

/-- The sixty values of `vals60` with 1-second-spaced timestamps. -/
def hist60 : List DataPoint := withTimes vals60

/-- A freshly initialized SARIMA service with configuration `cfgW`. -/
def stW : SarimaState := SarimaFallbackService.init cfgW

/-- An orchestrator state with the primary predictor unavailable and the
fallback flag still off. -/
def stF : ForecastState :=
  { forecast_horizon := 24, context_length := 168, use_granite := false,
    granite_available := false, model_loaded := false, sampleInterval := 3600,
    enableAnnualSeasonality := false, seasonalPeriodAnnual := 8760,
    seasonalPeriodDaily := 24, maeThreshold := 5, currentMae := 0,
    useFallback := false, predictionHistory := [], actualHistory := [],
    running := true, sarimaFallback := stW }

/-- An orchestrator state with the primary predictor available, loaded,
and a context requirement met by ten points. -/
def stG : ForecastState :=
  { stF with
      use_granite := true
      granite_available := true
      model_loaded := true
      context_length := 10 }

/-- `stF` with a requested horizon of 2 steps. -/
def stF2 : ForecastState := { stF with forecast_horizon := 2 }

/-- `cfgW` with a MAE window of two entries. -/
def cfg2 : SarimaConfig := { cfgW with maeWindowSize := 2 }

/-- Three prediction/actual pairs, one more than the window of `cfg2`. -/
def pairsW : List (ℚ × ℚ) := [(1, 2), (3, 4), (5, 6)]

/-- Ten humidity points held at 90 % (all within one calendar hour). -/
def hum10 : List DataPoint := withTimes (List.replicate 10 90)

/-- Three exogenous points: below the ten-point bar of the humidity
correction. -/
def exogSmall : List DataPoint :=
  [{ timestamp := 0, value := 50 }, { timestamp := 1, value := 60 },
   { timestamp := 2, value := 70 }]

/-- Constant-zero noise oracle. -/
def nilNoise : ℕ → ℚ := fun _ => 0

/-- Constant-zero annual-offset oracle. -/
def nilOffset : ℚ → ℚ := fun _ => 0

/-- The result `predict stF2 hist10 false none …` evaluates to (SARIMA
path, horizon clamped to 2). -/
def rW : PredictResult :=
  { predictions := [{ timestamp := 10, value := 20, horizonStep := 1, hoursAhead := 0 },
                    { timestamp := 11, value := 20, horizonStep := 2, hoursAhead := 0 }]
    forecastHorizonHours := 2
    contextSize := 10
    originalDataPoints := 10
    aggregated := false
    annualSeasonalityApplied := false
    humidityCorrectionApplied := false
    modelUsed := ModelTag.sarima }

/-- `rW` with the humidity-correction flag raised: the result of the same
call with a 3-point exogenous series supplied. -/
def r10 : PredictResult :=
  { rW with humidityCorrectionApplied := true }

lemma mapIdxAux_length {α β : Type} (f : ℕ → α → β) (k : ℕ) (l : List α) :
    (mapIdxAux f k l).length = l.length := by
  induction l generalizing k with
  | nil => rfl
  | cons x t ih => simp [mapIdxAux, ih]

lemma mapWithIdx_length {α β : Type} (f : ℕ → α → β) (l : List α) :
    (mapWithIdx f l).length = l.length :=
  mapIdxAux_length f 0 l

lemma mapIdxAux_getD {α β : Type} (f : ℕ → α → β) (k : ℕ) (l : List α) (i : ℕ)
    (hi : i < l.length) (d : β) (e : α) :
    (mapIdxAux f k l).getD i d = f (k + i) (l.getD i e) := by
  induction l generalizing k i with
  | nil => simp at hi
  | cons x t ih =>
    cases i with
    | zero => simp [mapIdxAux]
    | succ j =>
      have hj : j < t.length := by simpa using hi
      simp only [mapIdxAux, List.getD_cons_succ]
      rw [ih (k + 1) j hj]
      ring_nf

lemma mapWithIdx_getD {α β : Type} (f : ℕ → α → β) (l : List α) (i : ℕ)
    (hi : i < l.length) (d : β) (e : α) :
    (mapWithIdx f l).getD i d = f i (l.getD i e) := by
  simpa using mapIdxAux_getD f 0 l i hi d e

lemma cumsumAux_length (acc : ℚ) (l : List ℚ) : (cumsumAux acc l).length = l.length := by
  induction l generalizing acc with
  | nil => rfl
  | cons x t ih => simp [cumsumAux, ih]

lemma cumsum_length (l : List ℚ) : (cumsum l).length = l.length :=
  cumsumAux_length 0 l

lemma iterate_length (f : List ℚ → List ℚ) (hf : ∀ l, (f l).length = l.length) (n : ℕ)
    (l : List ℚ) : (f^[n] l).length = l.length := by
  induction n with
  | zero => rfl
  | succ m ih => rw [Function.iterate_succ_apply', hf, ih]

lemma invertNonSeasStep_length (orig l : List ℚ) :
    (invertNonSeasStep orig l).length = l.length := by
  simp [invertNonSeasStep, cumsum_length]

lemma invertSeasStep_length (orig : List ℚ) (s : ℕ) (l : List ℚ) :
    (invertSeasStep orig s l).length = l.length := by
  unfold invertSeasStep
  split
  · exact mapWithIdx_length _ l
  · rfl

lemma invertDifferencing_length (forecasts orig : List ℚ) (d s D : ℕ) :
    (invertDifferencing forecasts orig d s D).length = forecasts.length := by
  unfold invertDifferencing
  rw [iterate_length _ (invertSeasStep_length orig s) D,
    iterate_length _ (invertNonSeasStep_length orig) d]

lemma arForecastLoop_length (arCoeffs : List ℚ) (p : ℕ) (diffSeries : List ℚ)
    (buffer : List ℚ) (k : ℕ) :
    (arForecastLoop arCoeffs p diffSeries buffer k).length = k := by
  induction k generalizing buffer with
  | zero => rfl
  | succ m ih => simp [arForecastLoop, ih]

lemma simpleSarimaForecast_length (cfg : SarimaConfig) (series : List ℚ) (k : ℕ) :
    (simpleSarimaForecast cfg series k).length = k := by
  simp only [simpleSarimaForecast]
  by_cases h : (applyDifferencing series cfg.d cfg.s cfg.D).length < cfg.p + 1
  · simp [h]
  · simp only [h, if_false]
    rw [invertDifferencing_length, arForecastLoop_length]

lemma sarimaForecast_some_pred_length (st : SarimaState) (hist : List DataPoint)
    (k : ℕ) (r : SarimaForecastResult) (sst : SarimaState)
    (h : SarimaFallbackService.forecast st hist k = (some r, sst)) :
    r.predictions.length = k := by
  unfold SarimaFallbackService.forecast at h
  split at h
  · simp at h
  · split at h
    · simp at h
    · simp only [Prod.mk.injEq, Option.some.injEq] at h
      rw [← h.1]
      exact simpleSarimaForecast_length _ _ _

lemma applyHumidityCorrection_length (temps : List ℚ) (hh : List DataPoint) :
    (ForecastService.applyHumidityCorrection temps hh).length = temps.length := by
  unfold ForecastService.applyHumidityCorrection
  split
  · rfl
  · split
    · rfl
    · exact mapWithIdx_length _ temps

lemma addAnnualSeasonalComponent_length (st : ForecastState) (ao : ℚ → ℚ) (b : ℚ)
    (preds : List ℚ) :
    (ForecastService.addAnnualSeasonalComponent st ao b preds).length = preds.length := by
  unfold ForecastService.addAnnualSeasonalComponent
  split
  · rfl
  · exact mapWithIdx_length _ preds

lemma assembleResult_pred_length (st : ForecastState) (dh wd : List DataPoint)
    (agg : Bool) (ex : Option (List DataPoint)) (ao : ℚ → ℚ) (steps : ℕ)
    (vals : List ℚ) (tag : ModelTag) :
    (ForecastService.assembleResult st dh wd agg ex ao steps vals tag).predictions.length =
      vals.length := by
  unfold ForecastService.assembleResult
  simp only
  rw [mapWithIdx_length]
  cases ex with
  | none => simp only; split <;> simp [addAnnualSeasonalComponent_length]
  | some e =>
    simp only [applyHumidityCorrection_length]
    split <;> simp [addAnnualSeasonalComponent_length]

lemma sanitizePredictions_length_le (raw : List GraniteVal) (limit : ℕ) :
    (sanitizePredictions raw limit).length ≤ limit := by
  unfold sanitizePredictions
  simp

lemma graniteForecast_some_length (st : ForecastState) (steps : ℕ) (loadOk : Bool)
    (graniteRaw : Option (List GraniteVal)) (vals : List ℚ) (st1 : ForecastState)
    (h : ForecastService.graniteForecast st steps loadOk graniteRaw = (some vals, st1)) :
    vals.length ≤ steps := by
  cases graniteRaw with
  | none =>
    simp only [ForecastService.graniteForecast] at h
    split at h <;> simp at h
  | some raw =>
    simp only [ForecastService.graniteForecast] at h
    split at h
    · simp at h
    · split at h
      · simp at h
      · simp only [Prod.mk.injEq, Option.some.injEq] at h
        rw [← h.1]
        exact sanitizePredictions_length_le _ _

lemma graniteForecast_snd (st : ForecastState) (steps : ℕ) (loadOk : Bool)
    (graniteRaw : Option (List GraniteVal)) :
    (ForecastService.graniteForecast st steps loadOk graniteRaw).2 =
      ForecastService.loadGraniteModel st loadOk := by
  cases graniteRaw with
  | none =>
    simp only [ForecastService.graniteForecast]
    split <;> rfl
  | some raw =>
    simp only [ForecastService.graniteForecast]
    split
    · rfl
    · split <;> rfl

lemma loadGraniteModel_frame (st : ForecastState) (loadOk : Bool) :
    (ForecastService.loadGraniteModel st loadOk).predictionHistory = st.predictionHistory ∧
    (ForecastService.loadGraniteModel st loadOk).actualHistory = st.actualHistory ∧
    (ForecastService.loadGraniteModel st loadOk).currentMae = st.currentMae ∧
    (ForecastService.loadGraniteModel st loadOk).useFallback = st.useFallback ∧
    (ForecastService.loadGraniteModel st loadOk).sarimaFallback = st.sarimaFallback := by
  unfold ForecastService.loadGraniteModel
  split
  · simp
  · split <;> simp

lemma sarimaForecast_snd_frame (st : SarimaState) (hist : List DataPoint) (k : ℕ) :
    ((SarimaFallbackService.forecast st hist k).2).predictionHistory =
      st.predictionHistory ∧
    ((SarimaFallbackService.forecast st hist k).2).actualHistory = st.actualHistory ∧
    ((SarimaFallbackService.forecast st hist k).2).currentMae = st.currentMae ∧
    ((SarimaFallbackService.forecast st hist k).2).fallbackActive = st.fallbackActive ∧
    ((SarimaFallbackService.forecast st hist k).2).running = st.running := by
  unfold SarimaFallbackService.forecast
  split
  · simp
  · split <;> simp

lemma drop_append_left {α : Type} (j : ℕ) (a t : List α) (h : j ≤ a.length) :
    (a ++ t).drop j = a.drop j ++ t := by
  induction a generalizing j with
  | nil =>
    have : j = 0 := Nat.le_zero.mp h
    simp [this]
  | cons x xs ih =>
    cases j with
    | zero => simp
    | succ m => simpa using ih m (Nat.succ_le_succ_iff.mp h)

lemma dequeAppend_length (w : ℕ) (l : List ℚ) (x : ℚ) :
    (dequeAppend w l x).length = min (l.length + 1) w := by
  simp [dequeAppend]
  omega

lemma foldl_dequeAppend (w : ℕ) (xs : List ℚ) (l : List ℚ) (h : l.length ≤ w) :
    xs.foldl (dequeAppend w) l = (l ++ xs).drop (l.length + xs.length - w) := by
  induction xs generalizing l with
  | nil =>
    simp only [List.foldl_nil, List.append_nil, List.length_nil, Nat.add_zero]
    have h0 : l.length - w = 0 := by omega
    rw [h0, List.drop_zero]
  | cons x t ih =>
    have hlen : (dequeAppend w l x).length = min (l.length + 1) w := dequeAppend_length w l x
    have hle : (dequeAppend w l x).length ≤ w := by omega
    rw [List.foldl_cons, ih (dequeAppend w l x) hle]
    have hsplit : dequeAppend w l x = (l ++ [x]).drop (l.length + 1 - w) := by
      simp [dequeAppend]
    rw [hsplit]
    have hd : ((l ++ [x]).drop (l.length + 1 - w)) ++ t =
        ((l ++ [x]) ++ t).drop (l.length + 1 - w) := by
      rw [drop_append_left (l.length + 1 - w) (l ++ [x]) t (by simp)]
    rw [hd, List.drop_drop]
    have harr : (l ++ [x]) ++ t = l ++ x :: t := by simp
    rw [harr]
    congr 1
    have hlen2 : ((l ++ [x]).drop (l.length + 1 - w)).length = min (l.length + 1) w := by
      simp
      omega
    rw [hlen2]
    simp only [List.length_cons]
    omega

lemma foldl_update_config (st : SarimaState) (pairs : List (ℚ × ℚ)) :
    (pairs.foldl (fun s pr => (SarimaFallbackService.updateMaeTracking s pr.1 pr.2).2)
      st).config = st.config := by
  induction pairs generalizing st with
  | nil => rfl
  | cons p t ih => simpa [SarimaFallbackService.updateMaeTracking] using ih _

lemma foldl_update_predHistory (st : SarimaState) (pairs : List (ℚ × ℚ)) :
    (pairs.foldl (fun s pr => (SarimaFallbackService.updateMaeTracking s pr.1 pr.2).2)
      st).predictionHistory =
    (pairs.map Prod.fst).foldl (dequeAppend st.config.maeWindowSize)
      st.predictionHistory := by
  induction pairs generalizing st with
  | nil => rfl
  | cons p t ih =>
    simp only [List.foldl_cons, List.map_cons]
    rw [ih]
    rfl

lemma foldl_update_actHistory (st : SarimaState) (pairs : List (ℚ × ℚ)) :
    (pairs.foldl (fun s pr => (SarimaFallbackService.updateMaeTracking s pr.1 pr.2).2)
      st).actualHistory =
    (pairs.map Prod.snd).foldl (dequeAppend st.config.maeWindowSize)
      st.actualHistory := by
  induction pairs generalizing st with
  | nil => rfl
  | cons p t ih =>
    simp only [List.foldl_cons, List.map_cons]
    rw [ih]
    rfl

lemma listMean_all_eq (l : List ℚ) (c : ℚ) (h : ∀ x ∈ l, x = c) (hne : l ≠ []) :
    listMean l = c := by
  have hsum : l.sum = l.length • c := List.sum_eq_card_nsmul l c h
  have hlen : (l.length : ℚ) ≠ 0 := by
    simp only [ne_eq, Nat.cast_eq_zero, List.length_eq_zero]
    exact hne
  rw [listMean, hsum, nsmul_eq_mul, mul_comm, mul_div_assoc, div_self hlen, mul_one]

lemma popVar_all_eq (l : List ℚ) (c : ℚ) (h : ∀ x ∈ l, x = c) : popVar l = 0 := by
  by_cases hne : l = []
  · subst hne; simp [popVar, listMean]
  · have hm : listMean l = c := listMean_all_eq l c h hne
    have hmap : l.map (fun x => (x - listMean l) * (x - listMean l)) =
        List.replicate l.length 0 := by
      apply List.eq_replicate_iff.2
      refine ⟨by simp, ?_⟩
      intro y hy
      obtain ⟨x, hx, hxy⟩ := List.mem_map.mp hy
      rw [← hxy, hm, h x hx]
      ring
    rw [popVar, hmap, listMean]
    simp

lemma lastN_subset {α : Type} (n : ℕ) (l : List α) : ∀ x ∈ lastN n l, x ∈ l := by
  intro x hx
  exact List.drop_subset _ l hx

lemma lastN_of_le {α : Type} (n : ℕ) (l : List α) (h : l.length ≤ n) : lastN n l = l := by
  unfold lastN
  rw [Nat.sub_eq_zero_of_le h, List.drop_zero]

lemma aggregateHourlyData_ne_nil (dataHistory : List DataPoint) (h : dataHistory ≠ []) :
    aggregateHourlyData dataHistory ≠ [] := by
  unfold aggregateHourlyData
  rw [if_neg h]
  intro hmap
  have hlen := congrArg List.length hmap
  simp only [List.length_map, List.length_nil] at hlen
  rw [List.length_insertionSort] at hlen
  have := (List.dedup_eq_nil _).mp (List.length_eq_zero.mp hlen)
  exact h (List.map_eq_nil_iff.mp this)

lemma drop_replicate {α : Type} (a : α) (n k : ℕ) :
    (List.replicate n a).drop k = List.replicate (n - k) a := by
  induction n generalizing k with
  | zero => simp
  | succ m ih =>
    cases k with
    | zero => simp
    | succ j => simp [List.replicate_succ, ih j]

lemma zipWith_replicate_min {α β γ : Type} (f : α → β → γ) (a : α) (b : β) (n m : ℕ) :
    List.zipWith f (List.replicate n a) (List.replicate m b) =
      List.replicate (min n m) (f a b) := by
  induction n generalizing m with
  | zero => simp
  | succ i ih =>
    cases m with
    | zero => simp
    | succ j => simp [List.replicate_succ, ih, Nat.succ_min_succ]

lemma zipWith_sub_self (l : List ℚ) :
    List.zipWith (fun a b => b - a) l l = List.replicate l.length 0 := by
  induction l with
  | nil => rfl
  | cons x t ih => simp [ih, List.replicate_succ]

lemma cumsumAux_replicate_zero (acc : ℚ) (k : ℕ) :
    cumsumAux acc (List.replicate k 0) = List.replicate k acc := by
  induction k generalizing acc with
  | zero => rfl
  | succ j ih => simp [List.replicate_succ, cumsumAux, ih]

lemma mapIdxAux_replicate_zero (f : ℕ → ℚ → ℚ) (j k : ℕ) :
    mapIdxAux f j (List.replicate k 0) = (List.range k).map (fun i => f (j + i) 0) := by
  induction k generalizing j with
  | zero => rfl
  | succ m ih =>
    rw [List.replicate_succ]
    simp only [mapIdxAux]
    rw [ih (j + 1), List.range_succ_eq_map]
    simp only [List.map_cons, List.map_map, Nat.add_zero]
    congr 1
    apply List.map_congr_left
    intro i _
    simp only [Function.comp_apply]
    congr 1
    omega

lemma joinRep_succ {α : Type} (base : List α) (m : ℕ) :
    (List.replicate (m + 1) base).flatten = base ++ (List.replicate m base).flatten := by
  rw [List.replicate_succ, List.flatten_cons]

lemma joinRep_length {α : Type} (base : List α) (m : ℕ) :
    ((List.replicate m base).flatten).length = m * base.length := by
  induction m with
  | zero => simp
  | succ j ih => rw [joinRep_succ, List.length_append, ih]; ring

lemma zipWith_periodic_zero (base : List ℚ) (m : ℕ) :
    List.zipWith (fun a b => b - a) (base ++ (List.replicate m base).flatten)
      ((List.replicate m base).flatten) = List.replicate (m * base.length) 0 := by
  induction m with
  | zero => simp
  | succ j ih =>
    rw [joinRep_succ, List.zipWith_append _ _ _ _ _ rfl, zipWith_sub_self, ih,
      ← List.replicate_add]
    congr 1
    ring

lemma drop_joinRep {α : Type} (base : List α) (m : ℕ) :
    ((List.replicate (m + 1) base).flatten).drop (m * base.length) = base := by
  induction m with
  | zero => simp
  | succ j ih =>
    rw [joinRep_succ]
    rw [show (j + 1) * base.length = base.length + j * base.length by ring]
    rw [← List.drop_drop, List.drop_left]
    exact ih

/-- Claim C1: for every data history with at least 10 points (and the
service running, its state after construction), `SarimaFallbackService.forecast`
returns a result — never a no-result; internally the chain degrades down
to the mean of the last (at most) 10 raw values repeated for each
requested step when the differenced series is too short for the AR
order. -/
theorem sarimaForecast_always_some (st : SarimaState) (hist : List DataPoint) (steps : ℕ)
    (hrun : st.running = true) (hlen : 10 ≤ hist.length) :
    ((SarimaFallbackService.forecast st hist steps).1).isSome = true ∧
    (∀ (cfg : SarimaConfig) (series : List ℚ) (k : ℕ),
      (applyDifferencing series cfg.d cfg.s cfg.D).length < cfg.p + 1 →
      simpleSarimaForecast cfg series k =
        List.replicate k (listMean (lastN (min 10 series.length) series))) := by
  constructor
  · unfold SarimaFallbackService.forecast
    rw [if_neg (by simp [hrun])]
    rw [if_neg (by omega)]
    simp
  · intro cfg series k h
    unfold simpleSarimaForecast
    rw [if_pos h]

/-- Witness for C1 at a concrete running state and ten-point history. -/
theorem sarimaForecast_always_some_witness :
    ((SarimaFallbackService.forecast stW hist10 3).1).isSome = true :=
  (sarimaForecast_always_some stW hist10 3 rfl (by decide)).1

/-- Claim C2: for every data history with fewer than 10 points,
`ForecastService.predict` returns a no-result, regardless of the
aggregation flag and any exogenous data. -/
theorem predict_insufficient_none (st : ForecastState) (dataHistory : List DataPoint)
    (aggregateData : Bool) (exogenousData : Option (List DataPoint)) (loadOk : Bool)
    (graniteRaw : Option (List GraniteVal)) (noise : ℕ → ℚ) (annualOffset : ℚ → ℚ)
    (hlen : dataHistory.length < 10) :
    (ForecastService.predict st dataHistory aggregateData exogenousData loadOk graniteRaw
      noise annualOffset).1 = none := by
  unfold ForecastService.predict
  rw [if_pos hlen]

/-- Witness for C2 with an empty history, aggregation on, exogenous data
supplied. -/
theorem predict_insufficient_none_witness :
    (ForecastService.predict stF [] true (some exogSmall) true none nilNoise
      nilOffset).1 = none :=
  predict_insufficient_none stF [] true (some exogSmall) true none nilNoise nilOffset
    (by decide)

/-- Claim C3: `shouldUseFallback` is true exactly when the primary is
unavailable or the rolling MAE exceeds the threshold; with the primary
unavailable it is true for every MAE, and with the primary available and
MAE within the threshold it is false and the fallback flag deactivates. -/
theorem shouldUseFallback_iff (st : ForecastState) :
    ((ForecastService.shouldUseFallback st).1 = true ↔
      (st.granite_available = false ∨
        st.sarimaFallback.config.maeThreshold < st.currentMae)) ∧
    (∀ sst : SarimaState,
      (SarimaFallbackService.shouldUseFallback sst none).1 = true) ∧
    (st.granite_available = true →
      st.currentMae ≤ st.sarimaFallback.config.maeThreshold →
      (ForecastService.shouldUseFallback st).1 = false ∧
      (ForecastService.shouldUseFallback st).2.sarimaFallback.fallbackActive = false) := by
  refine ⟨?_, fun sst => rfl, ?_⟩
  · unfold ForecastService.shouldUseFallback SarimaFallbackService.shouldUseFallback
    cases hga : st.granite_available with
    | false => simp
    | true =>
      by_cases hm : st.sarimaFallback.config.maeThreshold < st.currentMae
      · simp [hm]
      · simp [hm]
  · intro hga hm
    unfold ForecastService.shouldUseFallback SarimaFallbackService.shouldUseFallback
    rw [hga]
    simp [not_lt.2 hm]

/-- Witness for C3: primary available, MAE 0 within threshold 5. -/
theorem shouldUseFallback_iff_witness :
    (ForecastService.shouldUseFallback stG).1 = false :=
  ((shouldUseFallback_iff stG).2.2 rfl (by decide)).1

/-- Claim C5: after every sequence of `updateMaeTracking` calls from the
initial state, the two FIFOs have equal length, bounded by the window;
the retained pairs are the most recent ones (oldest evicted first), and
strictly more calls than the window size leave exactly `maeWindowSize`
entries. -/
theorem updateMaeTracking_fifo_invariant (cfg : SarimaConfig) (pairs : List (ℚ × ℚ))
    (final : SarimaState)
    (hfinal : final = pairs.foldl
      (fun s pr => (SarimaFallbackService.updateMaeTracking s pr.1 pr.2).2)
      (SarimaFallbackService.init cfg)) :
    final.predictionHistory.length = final.actualHistory.length ∧
    final.predictionHistory.length ≤ cfg.maeWindowSize ∧
    final.predictionHistory =
      (pairs.map Prod.fst).drop (pairs.length - cfg.maeWindowSize) ∧
    final.actualHistory =
      (pairs.map Prod.snd).drop (pairs.length - cfg.maeWindowSize) ∧
    (cfg.maeWindowSize < pairs.length →
      final.predictionHistory.length = cfg.maeWindowSize) := by
  subst hfinal
  have hP := foldl_update_predHistory (SarimaFallbackService.init cfg) pairs
  have hA := foldl_update_actHistory (SarimaFallbackService.init cfg) pairs
  simp only [SarimaFallbackService.init] at hP hA
  rw [foldl_dequeAppend _ _ _ (by simp)] at hP hA
  simp only [List.nil_append, List.length_nil, Nat.zero_add, List.length_map] at hP hA
  simp only [SarimaFallbackService.init]
  refine ⟨?_, ?_, hP, hA, ?_⟩
  · rw [hP, hA]
    simp [List.length_drop]
  · rw [hP]
    simp only [List.length_drop, List.length_map]
    omega
  · intro hlt
    rw [hP]
    simp only [List.length_drop, List.length_map]
    omega

/-- Witness for C5: window 2, three pushed pairs; the retained
predictions are the last two pushed, in order. -/
theorem updateMaeTracking_fifo_invariant_witness :
    (pairsW.foldl (fun s pr => (SarimaFallbackService.updateMaeTracking s pr.1 pr.2).2)
      (SarimaFallbackService.init cfg2)).predictionHistory =
      (pairsW.map Prod.fst).drop (pairsW.length - cfg2.maeWindowSize) :=
  (updateMaeTracking_fifo_invariant cfg2 pairsW _ rfl).2.2.1

/-- Counterexample for C6: with the configured combined orders d = 1,
D = 1 (period 2) and the periodic series [1,2,1,2,1,2], the injected
zero deltas correspond to the periodic continuation [1,2] (the extended
series also differences to all zeros), yet `_invertDifferencing` returns
[3,4]: the non-seasonal inversion is anchored at the last original value
(2) instead of the last seasonally differenced value (0), adding 2 to
every step. -/
theorem differencing_roundtrip_counterexample :
    applyDifferencing [1, 2, 1, 2, 1, 2] 1 2 1 = [0, 0, 0] ∧
    applyDifferencing [1, 2, 1, 2, 1, 2, 1, 2] 1 2 1 = [0, 0, 0, 0, 0] ∧
    invertDifferencing [0, 0] [1, 2, 1, 2, 1, 2] 1 2 1 = [3, 4] ∧
    ([3, 4] : List ℚ) ≠ [1, 2] := by
  refine ⟨?_, ?_, ?_, ?_⟩ <;>
    norm_num [applyDifferencing, seasonalDiffStep, diffStep, invertDifferencing,
      invertNonSeasStep, invertSeasStep, cumsum, cumsumAux, lastN, mapWithIdx, mapIdxAux]

/-- Claim C6 (amended): the round-trip holds for a single differencing
level.  With d = 1 (D = 0) a constant series differences to all zeros
and inverting zero deltas extends it by its constant; with D = 1, d = 0
and period s = base length, a periodic series differences to all zeros
and inverting zero deltas produces exactly the periodic continuation.
With both d = 1 and D = 1 active the inversion adds the last original
value to every seasonal base and the round-trip fails unless that value
is zero (see the counterexample). -/
theorem differencing_roundtrip_single_level (c : ℚ) (n k : ℕ) (s : ℕ)
    (base : List ℚ) (m : ℕ) (hn : 2 ≤ n) (hb : base ≠ []) (hm : 1 ≤ m) :
    (applyDifferencing (List.replicate n c) 1 s 0 = List.replicate (n - 1) 0 ∧
      invertDifferencing (List.replicate k 0) (List.replicate n c) 1 s 0 =
        List.replicate k c) ∧
    (applyDifferencing ((List.replicate (m + 1) base).flatten) 0 base.length 1 =
        List.replicate (m * base.length) 0 ∧
      invertDifferencing (List.replicate k 0) ((List.replicate (m + 1) base).flatten)
        0 base.length 1 =
        (List.range k).map (fun i => base.getD (i % base.length) 0)) := by
  have hs : 0 < base.length := List.length_pos.2 hb
  refine ⟨⟨?_, ?_⟩, ?_, ?_⟩
  · simp only [applyDifferencing, Function.iterate_zero, id_eq, Function.iterate_one]
    unfold diffStep
    rw [if_pos (by simp; omega)]
    rw [show (List.replicate n c).drop 1 = List.replicate (n - 1) c by
      simp [drop_replicate]]
    rw [zipWith_replicate_min]
    rw [show min n (n - 1) = n - 1 by omega]
    simp
  · simp only [invertDifferencing, Function.iterate_zero, id_eq, Function.iterate_one]
    unfold invertNonSeasStep cumsum
    rw [cumsumAux_replicate_zero, List.map_replicate]
    rw [List.getLast?_replicate]
    rw [if_neg (by omega)]
    simp
  · simp only [applyDifferencing, Function.iterate_zero, id_eq, Function.iterate_one]
    unfold seasonalDiffStep
    rw [if_pos (by
      rw [joinRep_length]
      calc base.length = 1 * base.length := (one_mul _).symm
        _ < (m + 1) * base.length := by
          apply Nat.mul_lt_mul_of_lt_of_le (by omega) (le_refl _)
          omega)]
    rw [joinRep_succ, List.drop_left, zipWith_periodic_zero]
  · simp only [invertDifferencing, Function.iterate_zero, id_eq, Function.iterate_one]
    unfold invertSeasStep
    rw [if_pos (by rw [joinRep_length]; nlinarith)]
    have hlast : lastN base.length ((List.replicate (m + 1) base).flatten) = base := by
      unfold lastN
      rw [joinRep_length]
      rw [show (m + 1) * base.length - base.length = m * base.length by ring_nf; omega]
      exact drop_joinRep base m
    rw [hlast]
    unfold mapWithIdx
    rw [mapIdxAux_replicate_zero]
    apply List.map_congr_left
    intro i _
    simp

/-- Witness for C6 (amended), periodic part: base [1,2], one repetition,
three forecast steps. -/
theorem differencing_roundtrip_single_level_witness :
    applyDifferencing ((List.replicate 2 ([1, 2] : List ℚ)).flatten) 0
      ([1, 2] : List ℚ).length 1 = List.replicate (1 * ([1, 2] : List ℚ).length) 0 ∧
    invertDifferencing (List.replicate 3 0) ((List.replicate 2 ([1, 2] : List ℚ)).flatten)
      0 ([1, 2] : List ℚ).length 1 =
      (List.range 3).map (fun i => ([1, 2] : List ℚ).getD (i % ([1, 2] : List ℚ).length) 0) :=
  (differencing_roundtrip_single_level 5 3 3 7 [1, 2] 1 (by decide) (by decide)
    (by decide)).2

/-- Counterexample for C7: on `hist60` the last fifty values have mean 2
and population variance 1, while the mean over all sixty values is 10/3;
the code divides the last-fifty variance by the square of the
overall mean (confidence 91000009/100000009 ≈ 0.91), not by the square
of the last-fifty mean as the spec words it (which would give
3000001/4000001 ≈ 0.75). -/
theorem confidence_counterexample :
    ((SarimaFallbackService.forecast stW hist60 1).1.map (fun r => r.confidence)) =
      some (91000009/100000009) ∧
    confidencePerSpec (hist60.map DataPoint.value) = 3000001/4000001 ∧
    ((91000009 : ℚ)/100000009) ≠ 3000001/4000001 := by
  refine ⟨?_, ?_, by norm_num⟩
  · norm_num [SarimaFallbackService.forecast, stW, SarimaFallbackService.init, cfgW,
      hist60, vals60, withTimes, mapWithIdx, mapIdxAux, simpleSarimaForecast,
      applyDifferencing, diffStep, seasonalDiffStep, invertDifferencing,
      invertNonSeasStep, invertSeasStep, cumsum, cumsumAux, arForecastLoop,
      fitArCoefficients, lastN, listMean, popVar, detectSeasonality]
  · norm_num [confidencePerSpec, hist60, vals60, withTimes, mapWithIdx, mapIdxAux,
      lastN, listMean, popVar]

/-- Claim C7 (amended): the confidence returned by `forecast` equals
`clamp(1 − variance/(mean² + 1e-6), 0.5, 0.95)` where the variance is
taken over the last 50 (or fewer) raw values but the mean is taken over
the whole raw series; for a constant series (zero variance) the
confidence is 0.95. -/
theorem forecast_confidence_formula (st : SarimaState) (hist : List DataPoint) (steps : ℕ)
    (hrun : st.running = true) (hlen : 10 ≤ hist.length) :
    ((SarimaFallbackService.forecast st hist steps).1.map (fun r => r.confidence)) =
      some (max (1/2) (min (19/20)
        (1 - popVar (lastN 50 (hist.map DataPoint.value)) /
          (listMean (hist.map DataPoint.value) * listMean (hist.map DataPoint.value) +
            1/1000000)))) ∧
    (∀ c : ℚ, (∀ x ∈ hist.map DataPoint.value, x = c) →
      ((SarimaFallbackService.forecast st hist steps).1.map (fun r => r.confidence)) =
        some (19/20)) := by
  have hconf : ((SarimaFallbackService.forecast st hist steps).1.map
      (fun r => r.confidence)) =
      some (max (1/2) (min (19/20)
        (1 - popVar (lastN 50 (hist.map DataPoint.value)) /
          (listMean (hist.map DataPoint.value) * listMean (hist.map DataPoint.value) +
            1/1000000)))) := by
    unfold SarimaFallbackService.forecast
    rw [if_neg (by simp [hrun])]
    rw [if_neg (by omega)]
    simp only []
    by_cases h50 : 50 ≤ (hist.map DataPoint.value).length
    · rw [if_pos h50]
      rfl
    · rw [if_neg h50, lastN_of_le 50 _ (by omega)]
      rfl
  refine ⟨hconf, fun c hc => ?_⟩
  rw [hconf]
  have hv : popVar (lastN 50 (hist.map DataPoint.value)) = 0 :=
    popVar_all_eq _ c (fun x hx => hc x (lastN_subset 50 _ x hx))
  rw [hv]
  norm_num

/-- Witness for C7 (amended) on a constant ten-point series: the
confidence is exactly 0.95. -/
theorem forecast_confidence_formula_witness :
    ((SarimaFallbackService.forecast stW hist10 5).1.map (fun r => r.confidence)) =
      some (19/20) :=
  (forecast_confidence_formula stW hist10 5 rfl (by decide)).2 20
    (by simp [hist10, withTimes, mapWithIdx, mapIdxAux])

lemma lastN_ne_nil {α : Type} (n : ℕ) (l : List α) (hn : 0 < n) (hl : l ≠ []) :
    lastN n l ≠ [] := by
  intro h
  have hdrop := congrArg List.length h
  simp only [lastN, List.length_drop, List.length_nil] at hdrop
  have hlen : 0 < l.length := List.length_pos.2 hl
  omega

lemma aggregateHourlyData_value_const (h : List DataPoint) (c : ℚ)
    (hc : ∀ pt ∈ h, pt.value = c) :
    ∀ q ∈ (aggregateHourlyData h).map DataPoint.value, q = c := by
  intro q hq
  obtain ⟨pt, hpt, rfl⟩ := List.mem_map.mp hq
  unfold aggregateHourlyData at hpt
  by_cases hnil : h = []
  · rw [if_pos hnil] at hpt
    simp at hpt
  · rw [if_neg hnil] at hpt
    obtain ⟨b, hb, rfl⟩ := List.mem_map.mp hpt
    have hbmem : b ∈ h.map (fun pt => hourBucket pt.timestamp) := by
      have h1 : b ∈ (h.map (fun pt => hourBucket pt.timestamp)).dedup :=
        (List.perm_insertionSort (fun a b => a ≤ b)
          ((h.map (fun pt => hourBucket pt.timestamp)).dedup)).mem_iff.mp hb
      exact List.mem_dedup.mp h1
    obtain ⟨pt0, hpt0, hb0⟩ := List.mem_map.mp hbmem
    have hfo : pt0 ∈ h.filter (fun pt => decide (hourBucket pt.timestamp = b)) := by
      rw [List.mem_filter]
      exact ⟨hpt0, by simp [hb0]⟩
    simp only
    apply listMean_all_eq
    · intro x hx
      obtain ⟨pt1, hpt1, rfl⟩ := List.mem_map.mp hx
      exact hc pt1 (List.mem_filter.mp hpt1).1
    · intro hmapnil
      rw [List.map_eq_nil_iff] at hmapnil
      rw [hmapnil] at hfo
      simp at hfo

lemma humidityValuesOf_ne_nil (h : List DataPoint) (hne : h ≠ []) :
    humidityValuesOf h ≠ [] := by
  apply lastN_ne_nil _ _ (by omega)
  intro hmap
  exact aggregateHourlyData_ne_nil h hne (List.map_eq_nil_iff.mp hmap)

lemma avgHumidityOf_const (h : List DataPoint) (c : ℚ) (hne : h ≠ [])
    (hc : ∀ pt ∈ h, pt.value = c) : avgHumidityOf h = c := by
  apply listMean_all_eq _ c
  · intro q hq
    exact aggregateHourlyData_value_const h c hc q (lastN_subset 24 _ q hq)
  · exact humidityValuesOf_ne_nil h hne

lemma humiditySlopeOf_const (h : List DataPoint) (c : ℚ)
    (hc : ∀ pt ∈ h, pt.value = c) : humiditySlopeOf h = 0 := by
  unfold humiditySlopeOf
  split
  · rename_i hlen2
    have hvc : ∀ q ∈ humidityValuesOf h, q = c := fun q hq =>
      aggregateHourlyData_value_const h c hc q (lastN_subset 24 _ q hq)
    cases hv : humidityValuesOf h with
    | nil => rw [hv] at hlen2; simp at hlen2
    | cons x t =>
      have hx : x = c := hvc x (by rw [hv]; exact List.mem_cons_self x t)
      have hlast : (x :: t).getLast (by simp) ∈ x :: t := List.getLast_mem _
      have hl : (x :: t).getLast (by simp) = c := by
        apply hvc
        rw [hv]
        exact hlast
      rw [List.getLast?_eq_getLast (x :: t) (by simp), Option.getD_some,
        List.headD_cons, hl, hx]
      simp
  · rfl

/-- Claim C8: with at least 10 exogenous humidity points, the correction
added to forecast step `i` is `(clamp(mean + slope·(i+1), 0, 100) − 50) ·
0.05`, with mean and slope taken over the last 24 hourly-aggregated
exogenous values (step numbering is 1-based, matching the `horizonStep`
field); in particular with humidity held constant at 90 % and a constant
base forecast of 25.0 every corrected step equals 27.0. -/
theorem humidityCorrection_formula (tempPredictions : List ℚ)
    (humidityHistory : List DataPoint) (i : ℕ)
    (hlen : 10 ≤ humidityHistory.length) (hi : i < tempPredictions.length) :
    (ForecastService.applyHumidityCorrection tempPredictions humidityHistory).getD i 0 =
      tempPredictions.getD i 0 +
        (max 0 (min 100 (avgHumidityOf humidityHistory +
          humiditySlopeOf humidityHistory * ((i : ℚ) + 1))) - 50) * (1/20) ∧
    ((∀ pt ∈ humidityHistory, pt.value = 90) → tempPredictions.getD i 0 = 25 →
      (ForecastService.applyHumidityCorrection tempPredictions humidityHistory).getD i 0 =
        27) := by
  have hne : humidityHistory ≠ [] := by
    intro h
    rw [h] at hlen
    simp at hlen
  have hmain : (ForecastService.applyHumidityCorrection tempPredictions
      humidityHistory).getD i 0 =
      tempPredictions.getD i 0 +
        (max 0 (min 100 (avgHumidityOf humidityHistory +
          humiditySlopeOf humidityHistory * ((i : ℚ) + 1))) - 50) * (1/20) := by
    unfold ForecastService.applyHumidityCorrection
    rw [if_neg (by omega), if_neg (aggregateHourlyData_ne_nil humidityHistory hne)]
    exact mapWithIdx_getD _ tempPredictions i hi 0 0
  refine ⟨hmain, fun hconst hbase => ?_⟩
  rw [hmain, hbase, avgHumidityOf_const humidityHistory 90 hne hconst,
    humiditySlopeOf_const humidityHistory 90 hconst]
  norm_num

/-- Witness for C8: ten 90 % humidity points, constant base forecast
25.0, first step corrected to exactly 27.0. -/
theorem humidityCorrection_formula_witness :
    (ForecastService.applyHumidityCorrection (List.replicate 5 25) hum10).getD 0 0 = 27 :=
  (humidityCorrection_formula (List.replicate 5 25) hum10 0 (by decide) (by decide)).2
    (by simp [hum10, withTimes, mapWithIdx, mapIdxAux]) rfl

lemma simpleForecastFS_length (series : List ℚ) (k : ℕ) (noise : ℕ → ℚ) :
    (ForecastService.simpleForecast series k noise).length = k := by
  simp [ForecastService.simpleForecast]

lemma exponentialSmoothingForecast_length (series : List ℚ) (k : ℕ) (noise : ℕ → ℚ) :
    (ForecastService.exponentialSmoothingForecast series k noise).length = k :=
  simpleForecastFS_length series k noise

lemma predict_granite_branch (st : ForecastState) (dh : List DataPoint) (agg : Bool)
    (ex : Option (List DataPoint)) (lo : Bool) (gr : Option (List GraniteVal))
    (noise : ℕ → ℚ) (ao : ℚ → ℚ) (vals : List ℚ) (st1 : ForecastState)
    (h10 : ¬ dh.length < 10)
    (hcond : st.use_granite = true ∧ st.context_length ≤
      (if agg = true ∧ st.sampleInterval < dh.length then aggregateHourlyData dh
        else dh).length)
    (hg : ForecastService.graniteForecast st (min st.forecast_horizon 24) lo gr =
      (some vals, st1)) :
    ForecastService.predict st dh agg ex lo gr noise ao =
      (some (ForecastService.assembleResult st1 dh
        (if agg = true ∧ st.sampleInterval < dh.length then aggregateHourlyData dh else dh)
        agg ex ao (min st.forecast_horizon 24) vals ModelTag.granite), st1) := by
  unfold ForecastService.predict
  rw [if_neg h10]
  simp only []
  rw [if_pos hcond, hg]

lemma predict_sarima_branch (st : ForecastState) (dh : List DataPoint) (agg : Bool)
    (ex : Option (List DataPoint)) (lo : Bool) (gr : Option (List GraniteVal))
    (noise : ℕ → ℚ) (ao : ℚ → ℚ) (st1 : ForecastState) (r : SarimaForecastResult)
    (sst : SarimaState)
    (h10 : ¬ dh.length < 10)
    (hgr : (if st.use_granite = true ∧ st.context_length ≤
        (if agg = true ∧ st.sampleInterval < dh.length then aggregateHourlyData dh
          else dh).length
      then ForecastService.graniteForecast st (min st.forecast_horizon 24) lo gr
      else (none, st)) = (none, st1))
    (hs : SarimaFallbackService.forecast st1.sarimaFallback
        (if agg = true ∧ st.sampleInterval < dh.length then aggregateHourlyData dh else dh)
        (min st.forecast_horizon 24) = (some r, sst)) :
    ForecastService.predict st dh agg ex lo gr noise ao =
      (some (ForecastService.assembleResult
          { st1 with sarimaFallback := sst, useFallback := true } dh
          (if agg = true ∧ st.sampleInterval < dh.length then aggregateHourlyData dh
            else dh)
          agg ex ao (min st.forecast_horizon 24) r.predictions ModelTag.sarima),
        { st1 with sarimaFallback := sst, useFallback := true }) := by
  unfold ForecastService.predict
  rw [if_neg h10]
  simp only []
  rw [hgr]
  simp only []
  rw [hs]

lemma sarimaForecast_eq_some (st : SarimaState) (hist : List DataPoint) (k : ℕ)
    (hrun : st.running = true) (hlen : 10 ≤ hist.length) :
    ∃ r sst, SarimaFallbackService.forecast st hist k = (some r, sst) := by
  unfold SarimaFallbackService.forecast
  rw [if_neg (by simp [hrun]), if_neg (by omega)]
  exact ⟨_, _, rfl⟩

/-- Counterexample for C4: with the primary model available and its
pipeline returning a single finite value, `predict` succeeds with one
prediction entry although the clamped requested horizon is 24. -/
theorem predict_length_counterexample :
    ((ForecastService.predict stG hist10 false none true (some [GraniteVal.num 1])
      nilNoise nilOffset).1.map (fun r => r.predictions.length)) = some 1 ∧
    min stG.forecast_horizon 24 = 24 ∧ (1 : ℕ) ≠ 24 := by
  refine ⟨?_, rfl, by decide⟩
  have hg : ForecastService.graniteForecast stG (min stG.forecast_horizon 24) true
      (some [GraniteVal.num 1]) = (some [1], stG) := by
    simp [ForecastService.graniteForecast, ForecastService.loadGraniteModel, stG, stF,
      sanitizePredictions]
  rw [predict_granite_branch stG hist10 false none true (some [GraniteVal.num 1])
    nilNoise nilOffset [1] stG (by decide) (by decide) hg]
  simp [assembleResult_pred_length]

/-- Claim C4 (amended): every produced result has at most
`min(requestedHorizon, 24)` predictions, with equality whenever the
forecast came from the SARIMA or exponential-smoothing fallback; only a
primary-model output whose sanitized prediction column is shorter than
the clamped horizon yields fewer entries. -/
theorem predict_length_bounds (st : ForecastState) (dataHistory : List DataPoint)
    (aggregateData : Bool) (exogenousData : Option (List DataPoint)) (loadOk : Bool)
    (graniteRaw : Option (List GraniteVal)) (noise : ℕ → ℚ) (annualOffset : ℚ → ℚ)
    (r : PredictResult)
    (hsome : (ForecastService.predict st dataHistory aggregateData exogenousData loadOk
      graniteRaw noise annualOffset).1 = some r) :
    r.predictions.length ≤ min st.forecast_horizon 24 ∧
    (r.modelUsed ≠ ModelTag.granite →
      r.predictions.length = min st.forecast_horizon 24) := by
  unfold ForecastService.predict at hsome
  by_cases h10 : dataHistory.length < 10
  · rw [if_pos h10] at hsome
    simp at hsome
  · rw [if_neg h10] at hsome
    simp only [] at hsome
    rcases hg : (if st.use_granite = true ∧ st.context_length ≤
        (if aggregateData = true ∧ st.sampleInterval < dataHistory.length then
          aggregateHourlyData dataHistory else dataHistory).length then
        ForecastService.graniteForecast st (min st.forecast_horizon 24) loadOk graniteRaw
      else (none, st)) with ⟨og, st1⟩
    rw [hg] at hsome
    cases og with
    | some vals =>
      simp only [Option.some.injEq] at hsome
      have hvals : vals.length ≤ min st.forecast_horizon 24 := by
        by_cases hcond : st.use_granite = true ∧ st.context_length ≤
            (if aggregateData = true ∧ st.sampleInterval < dataHistory.length then
              aggregateHourlyData dataHistory else dataHistory).length
        · rw [if_pos hcond] at hg
          exact graniteForecast_some_length st _ loadOk graniteRaw vals st1 hg
        · rw [if_neg hcond] at hg
          simp at hg
      rw [← hsome]
      constructor
      · rw [assembleResult_pred_length]
        exact hvals
      · intro hne
        exact absurd rfl hne
    | none =>
      simp only [] at hsome
      rcases hs : SarimaFallbackService.forecast st1.sarimaFallback
          (if aggregateData = true ∧ st.sampleInterval < dataHistory.length then
            aggregateHourlyData dataHistory else dataHistory)
          (min st.forecast_horizon 24) with ⟨os, sst⟩
      rw [hs] at hsome
      cases os with
      | some r' =>
        simp only [Option.some.injEq] at hsome
        have hlen : r'.predictions.length = min st.forecast_horizon 24 :=
          sarimaForecast_some_pred_length _ _ _ r' sst hs
        rw [← hsome]
        constructor
        · rw [assembleResult_pred_length, hlen]
        · intro _
          rw [assembleResult_pred_length, hlen]
      | none =>
        simp only [Option.some.injEq] at hsome
        rw [← hsome]
        constructor
        · rw [assembleResult_pred_length, exponentialSmoothingForecast_length]
        · intro _
          rw [assembleResult_pred_length, exponentialSmoothingForecast_length]

/-- Witness for C4 (amended): the SARIMA path with a horizon of 2
produces exactly 2 = min(2, 24) predictions. -/
theorem predict_length_bounds_witness :
    rW.predictions.length = min stF2.forecast_horizon 24 :=
  (predict_length_bounds stF2 hist10 false none true none nilNoise nilOffset rW
    (by norm_num [ForecastService.predict, ForecastService.assembleResult,
      ForecastService.addAnnualSeasonalComponent, qTrunc, stF2, stF, stW,
      SarimaFallbackService.init, cfgW, hist10, withTimes, mapWithIdx, mapIdxAux,
      SarimaFallbackService.forecast, simpleSarimaForecast, applyDifferencing, diffStep,
      seasonalDiffStep, invertDifferencing, invertNonSeasStep, invertSeasStep, cumsum,
      cumsumAux, arForecastLoop, fitArCoefficients, lastN, listMean, popVar,
      detectSeasonality, nilNoise, nilOffset, rW, List.range_succ])).2 (by decide)

/-- Counterexample for C9: a call to `predict` is not free of side
effects: with the primary unavailable and the fallback flag off, a
successful SARIMA forecast inside `predict` flips `useFallback` to
true. -/
theorem predict_side_effect_counterexample :
    (ForecastService.predict stF hist10 false none true none nilNoise
      nilOffset).2.useFallback = true ∧ stF.useFallback = false := by
  refine ⟨?_, rfl⟩
  obtain ⟨r, sst, hs⟩ := sarimaForecast_eq_some stF.sarimaFallback hist10
    (min stF.forecast_horizon 24) rfl (by decide)
  rw [predict_sarima_branch stF hist10 false none true none nilNoise nilOffset stF r sst
    (by decide) (by rw [if_neg (by simp [stF])]) hs]

/-- Claim C9 (amended): `predict` never touches the MAE-tracking state —
the orchestrator FIFOs, its current MAE, the SARIMA service FIFOs, its
current MAE and its fallback flag are all unchanged — but it is not
fully side-effect free: it may set the orchestrator `useFallback` flag
to true (when the SARIMA fallback produced the forecast; the flag is
never cleared by `predict`), and the SARIMA configuration `s` and the
lazy model-load flags may also change. -/
theorem predict_frame_conditions (st : ForecastState) (dataHistory : List DataPoint)
    (aggregateData : Bool) (exogenousData : Option (List DataPoint)) (loadOk : Bool)
    (graniteRaw : Option (List GraniteVal)) (noise : ℕ → ℚ) (annualOffset : ℚ → ℚ)
    (out : Option PredictResult × ForecastState)
    (hout : out = ForecastService.predict st dataHistory aggregateData exogenousData
      loadOk graniteRaw noise annualOffset) :
    out.2.predictionHistory = st.predictionHistory ∧
    out.2.actualHistory = st.actualHistory ∧
    out.2.currentMae = st.currentMae ∧
    out.2.sarimaFallback.predictionHistory = st.sarimaFallback.predictionHistory ∧
    out.2.sarimaFallback.actualHistory = st.sarimaFallback.actualHistory ∧
    out.2.sarimaFallback.currentMae = st.sarimaFallback.currentMae ∧
    out.2.sarimaFallback.fallbackActive = st.sarimaFallback.fallbackActive ∧
    (out.2.useFallback = true ∨ out.2.useFallback = st.useFallback) := by
  subst hout
  unfold ForecastService.predict
  by_cases h10 : dataHistory.length < 10
  · rw [if_pos h10]
    exact ⟨rfl, rfl, rfl, rfl, rfl, rfl, rfl, Or.inr rfl⟩
  · rw [if_neg h10]
    simp only []
    rcases hg : (if st.use_granite = true ∧ st.context_length ≤
        (if aggregateData = true ∧ st.sampleInterval < dataHistory.length then
          aggregateHourlyData dataHistory else dataHistory).length then
        ForecastService.graniteForecast st (min st.forecast_horizon 24) loadOk graniteRaw
      else (none, st)) with ⟨og, st1⟩
    have hframe : st1.predictionHistory = st.predictionHistory ∧
        st1.actualHistory = st.actualHistory ∧
        st1.currentMae = st.currentMae ∧
        st1.useFallback = st.useFallback ∧
        st1.sarimaFallback = st.sarimaFallback := by
      by_cases hcond : st.use_granite = true ∧ st.context_length ≤
          (if aggregateData = true ∧ st.sampleInterval < dataHistory.length then
            aggregateHourlyData dataHistory else dataHistory).length
      · rw [if_pos hcond] at hg
        have h2 : st1 = ForecastService.loadGraniteModel st loadOk := by
          rw [← graniteForecast_snd st (min st.forecast_horizon 24) loadOk graniteRaw, hg]
        obtain ⟨e1, e2, e3, e4, e5⟩ := loadGraniteModel_frame st loadOk
        rw [h2]
        exact ⟨e1, e2, e3, e4, e5⟩
      · rw [if_neg hcond] at hg
        have h2 : st1 = st := (congrArg Prod.snd hg).symm
        rw [h2]
        exact ⟨rfl, rfl, rfl, rfl, rfl⟩
    obtain ⟨f1, f2, f3, f4, f5⟩ := hframe
    cases og with
    | some vals =>
      simp only []
      exact ⟨f1, f2, f3, by rw [f5], by rw [f5], by rw [f5], by rw [f5], Or.inr f4⟩
    | none =>
      simp only []
      rcases hsar : SarimaFallbackService.forecast st1.sarimaFallback
          (if aggregateData = true ∧ st.sampleInterval < dataHistory.length then
            aggregateHourlyData dataHistory else dataHistory)
          (min st.forecast_horizon 24) with ⟨os, sst⟩
      have hsst : sst = (SarimaFallbackService.forecast st1.sarimaFallback
          (if aggregateData = true ∧ st.sampleInterval < dataHistory.length then
            aggregateHourlyData dataHistory else dataHistory)
          (min st.forecast_horizon 24)).2 := by
        rw [hsar]
      obtain ⟨s1, s2, s3, s4, _⟩ := sarimaForecast_snd_frame st1.sarimaFallback
        (if aggregateData = true ∧ st.sampleInterval < dataHistory.length then
          aggregateHourlyData dataHistory else dataHistory)
        (min st.forecast_horizon 24)
      rw [← hsst] at s1 s2 s3 s4
      cases os with
      | some r' =>
        simp only []
        refine ⟨f1, f2, f3, ?_, ?_, ?_, ?_, Or.inl (by simp)⟩ <;>
          simp only [s1, s2, s3, s4, f5]
      | none =>
        simp only []
        refine ⟨f1, f2, f3, ?_, ?_, ?_, ?_, Or.inr f4⟩ <;>
          simp only [s1, s2, s3, s4, f5]

/-- Witness for C9 (amended): concrete call leaving the SARIMA fallback
flag untouched. -/
theorem predict_frame_conditions_witness :
    (ForecastService.predict stF hist10 false none true none nilNoise
      nilOffset).2.sarimaFallback.fallbackActive = stF.sarimaFallback.fallbackActive :=
  (predict_frame_conditions stF hist10 false none true none nilNoise nilOffset _
    rfl).2.2.2.2.2.2.1

/-- Claim C10: whenever `predict` is called with exogenous data and
produces a result, the `humidity_correction_applied` field is true, even
when the exogenous series has fewer than 10 points — in which case
`applyHumidityCorrection` returns the predictions unchanged and no
correction was actually applied. -/
theorem humidity_flag_always_true (st : ForecastState) (dataHistory : List DataPoint)
    (aggregateData : Bool) (exogenous : List DataPoint) (loadOk : Bool)
    (graniteRaw : Option (List GraniteVal)) (noise : ℕ → ℚ) (annualOffset : ℚ → ℚ)
    (r : PredictResult)
    (hsome : (ForecastService.predict st dataHistory aggregateData (some exogenous) loadOk
      graniteRaw noise annualOffset).1 = some r) :
    r.humidityCorrectionApplied = true ∧
    (∀ (temps : List ℚ) (ex : List DataPoint), ex.length < 10 →
      ForecastService.applyHumidityCorrection temps ex = temps) := by
  constructor
  · unfold ForecastService.predict at hsome
    by_cases h10 : dataHistory.length < 10
    · rw [if_pos h10] at hsome
      simp at hsome
    · rw [if_neg h10] at hsome
      simp only [] at hsome
      rcases hg : (if st.use_granite = true ∧ st.context_length ≤
          (if aggregateData = true ∧ st.sampleInterval < dataHistory.length then
            aggregateHourlyData dataHistory else dataHistory).length then
          ForecastService.graniteForecast st (min st.forecast_horizon 24) loadOk graniteRaw
        else (none, st)) with ⟨og, st1⟩
      rw [hg] at hsome
      cases og with
      | some vals =>
        simp only [Option.some.injEq] at hsome
        rw [← hsome]
        rfl
      | none =>
        simp only [] at hsome
        rcases hs : SarimaFallbackService.forecast st1.sarimaFallback
            (if aggregateData = true ∧ st.sampleInterval < dataHistory.length then
              aggregateHourlyData dataHistory else dataHistory)
            (min st.forecast_horizon 24) with ⟨os, sst⟩
        rw [hs] at hsome
        cases os with
        | some r' =>
          simp only [Option.some.injEq] at hsome
          rw [← hsome]
          rfl
        | none =>
          simp only [Option.some.injEq] at hsome
          rw [← hsome]
          rfl
  · intro temps ex hex
    unfold ForecastService.applyHumidityCorrection
    rw [if_pos hex]

/-- Witness for C10: a successful call with a 3-point exogenous series
reports the humidity-correction flag as true. -/
theorem humidity_flag_always_true_witness :
    r10.humidityCorrectionApplied = true :=
  (humidity_flag_always_true stF2 hist10 false exogSmall true none nilNoise nilOffset r10
    (by norm_num [ForecastService.predict, ForecastService.assembleResult,
      ForecastService.addAnnualSeasonalComponent, ForecastService.applyHumidityCorrection,
      qTrunc, stF2, stF, stW, SarimaFallbackService.init, cfgW, hist10, withTimes,
      mapWithIdx, mapIdxAux, SarimaFallbackService.forecast, simpleSarimaForecast,
      applyDifferencing, diffStep, seasonalDiffStep, invertDifferencing,
      invertNonSeasStep, invertSeasStep, cumsum, cumsumAux, arForecastLoop,
      fitArCoefficients, lastN, listMean, popVar, detectSeasonality, nilNoise, nilOffset,
      exogSmall, r10, rW, List.range_succ])).1
